import Mathlib

/-!
Shallow embedding of the prefetch job runner of `keunseop/divided-dashboard`
(`src/core/prefetch_runner.py`), together with proofs of the specified
properties of job creation, the step loop, caching, and error handling.

The fetch client (`core.dps_service.get_dps_series`) is an external,
fallible collaborator; it is modelled as an oracle returning either a list
of series items (plus its own effect on the cache table) or a
`DartApiUnavailable` error message.  The engine state carries two
instrumentation logs that the Python code only exhibits operationally:
`fetchCalls` records each invocation of the fetch client and `visited`
records each `(ticker, year)` unit attempted by the step loop.
-/

namespace PrefetchRunner

/-- Job status enumeration (`PrefetchJobStatus`), as used by the runner. -/
inductive JobStatus where
  | paused
  | running
  | cancelRequested
  | cancelled
  | done
  | failed
deriving DecidableEq, Repr

/-- A raw Python value fed to `normalize_ticker` (a string, `None`, or NaN). -/
inductive RawVal where
  | null
  | nan
  | str (s : String)
deriving DecidableEq, Repr

/-- Python `str.strip()`: drop surrounding whitespace. -/
def py_strip (s : String) : String :=
  ⟨((s.data.dropWhile Char.isWhitespace).reverse.dropWhile Char.isWhitespace).reverse⟩

/-- Python `str.upper()`. -/
def py_upper (s : String) : String :=
  ⟨s.data.map Char.toUpper⟩

/-- Python `str.lower()`. -/
def py_lower (s : String) : String :=
  ⟨s.data.map Char.toLower⟩

/-- `core.utils.normalize_ticker`: nullish input becomes `""`; otherwise the
string is stripped of surrounding whitespace and upper-cased. -/
def normalize_ticker : RawVal → String
  | .null => ""
  | .nan => ""
  | .str s => if py_strip s = "" then "" else py_upper (py_strip s)

/-- A loosely-typed value read from the persisted options bag (Python would
apply `int(...)` to it, which can fail). -/
inductive PyVal where
  | intVal (n : Int)
  | nonInt
deriving DecidableEq, Repr

/-- `_normalize_recent_years`: coerce to int (0 on failure) and clamp to `[0, 2]`. -/
def normalize_recent_years : PyVal → Nat
  | .intVal n => (max 0 (min 2 n)).toNat
  | .nonInt => 0

/-- The `options` dict of the persisted payload; the runner only reads the
`revalidate_recent_years` key. -/
structure OptionsBag where
  revalidateRecentYears : Option PyVal
deriving DecidableEq, Repr

/-- Shape of the persisted `tickers_json` payload after JSON parsing:
a dict (with optional `tickers` list and `options` dict), a bare list,
some other JSON scalar, or unparseable text. -/
inductive JobPayload where
  | dict (tickers : Option (List RawVal)) (options : Option OptionsBag)
  | list (tickers : List RawVal)
  | scalar
  | malformed
deriving DecidableEq, Repr

/-- The cleaning loop of `_decode_job_payload`: normalize every raw value and
keep the non-empty results. -/
def clean_tickers (raw : List RawVal) : List String :=
  (raw.map normalize_ticker).filter (fun t => t ≠ "")

/-- `_decode_job_payload`: `None`/empty or malformed payloads decode to no
tickers and no options; a bare list has no options; a dict contributes both. -/
def decode_job_payload : Option JobPayload → List String × Option OptionsBag
  | .none => ([], .none)
  | .some .malformed => ([], .none)
  | .some .scalar => ([], .none)
  | .some (.list raw) => (clean_tickers raw, .none)
  | .some (.dict raw opts) => (clean_tickers (raw.getD []), opts)

/-- `_extract_recent_years`: read `revalidate_recent_years` (default 0) from
the options bag and normalize it. -/
def extract_recent_years : Option OptionsBag → Nat
  | .none => 0
  | .some bag => normalize_recent_years (bag.revalidateRecentYears.getD (.intVal 0))

/-- `core.dps_service` constants used by the runner. -/
def PARSER_VERSION : String := "v1"

/-- Default `reprt_code` (`core.dps_service.DEFAULT_REPRT_CODE`). -/
def DEFAULT_REPRT_CODE : String := "11011"

/-- The blob stored in `DividendDpsCache.raw_payload`: either the confirmed
error marker written by `_mark_missing_step` or some other provider payload. -/
inductive CachePayload where
  | errorMarker (message : String)
  | blob (s : String)
deriving DecidableEq, Repr

/-- One row of the `DividendDpsCache` table, as used by the runner. -/
structure DpsCacheRow where
  ticker : String
  fiscalYear : Int
  reprtCode : String
  currency : Option String
  dpsCash : Option Rat
  parserVersion : String
  rawPayload : Option CachePayload
deriving DecidableEq, Repr

/-- One item returned by the fetch client (`DpsSeriesItem`). -/
structure DpsSeriesItem where
  ticker : String
  fiscalYear : Int
  reprtCode : String
  dpsCash : Option Rat
  currency : Option String
deriving DecidableEq, Repr

/-- The persisted `PrefetchJob` row, restricted to the columns the runner
reads or writes (timestamps are store-managed and never consulted). -/
structure PrefetchJob where
  jobId : String
  status : JobStatus
  jobName : Option String
  tickersJson : Option JobPayload
  startYear : Int
  endYear : Int
  reprtCode : String
  forceRefresh : Bool
  cursorIndex : Nat
  cursorYear : Int
  processedCount : Nat
  successCount : Nat
  skipCount : Nat
  failCount : Nat
  lastError : Option String
deriving DecidableEq, Repr

/-- Lookup of the unique cache row keyed by (ticker, fiscal year, reprt code)
(`scalar_one_or_none` over the filtered select). -/
def cache_lookup (cache : List DpsCacheRow) (ticker : String) (year : Int)
    (reprt : String) : Option DpsCacheRow :=
  cache.find? (fun r => r.ticker == ticker && r.fiscalYear == year && r.reprtCode == reprt)

/-- `_has_cached_value`: cache *presence* (any row for the key), regardless of
whether the row holds a real value or a marker. -/
def has_cached_value (cache : List DpsCacheRow) (ticker : String) (year : Int)
    (reprt : String) : Bool :=
  (cache_lookup cache ticker year reprt).isSome

/-- `_mark_missing_step`: write a confirmed-error marker for the key.  An
existing row holding a real `dps_cash` value is left untouched; an existing
valueless row gets its payload and parser version overwritten; otherwise a
fresh marker row is inserted. -/
def mark_missing_step (cache : List DpsCacheRow) (ticker : String) (year : Int)
    (reprt : String) (message : String) : List DpsCacheRow :=
  match cache_lookup cache ticker year reprt with
  | .some cached =>
    if cached.dpsCash.isSome then cache
    else
      cache.map (fun r =>
        if r.ticker == ticker && r.fiscalYear == year && r.reprtCode == reprt then
          { r with rawPayload := .some (.errorMarker message),
                   parserVersion := PARSER_VERSION }
        else r)
  | .none =>
    cache ++ [{ ticker := ticker, fiscalYear := year, reprtCode := reprt,
                currency := .none, dpsCash := .none,
                parserVersion := PARSER_VERSION,
                rawPayload := .some (.errorMarker message) }]

/-- Does the second character list start the first? -/
def list_starts_with : List Char → List Char → Bool
  | _, [] => true
  | [], _ :: _ => false
  | c :: cs, p :: ps => c == p && list_starts_with cs ps

/-- Does the pattern occur anywhere in the character list? -/
def list_contains_sub : List Char → List Char → Bool
  | [], pat => pat.isEmpty
  | c :: cs, pat => list_starts_with (c :: cs) pat || list_contains_sub cs pat

/-- Substring occurrence test (Python's `in` on strings). -/
def contains_substr (s pat : String) : Bool :=
  list_contains_sub s.data pat.data

/-- `_is_missing_corp_code_error`: the entity-unresolvable error class. -/
def is_missing_corp_code_error (message : String) : Bool :=
  if message = "" then false
  else contains_substr message "고유번호" || contains_substr (py_lower message) "corp_code"

/-- `_should_force_refresh`: within the revalidation window of the most recent
`revalidate_recent_years` years of the range. -/
def should_force_refresh (job : PrefetchJob) (year : Int)
    (revalidateRecentYears : Nat) : Bool :=
  if revalidateRecentYears = 0 then false
  else decide (max job.startYear (job.endYear - (revalidateRecentYears : Int) + 1) ≤ year)

/-- The effective reprt code of a step (`job.reprt_code or DEFAULT_REPRT_CODE`). -/
def step_reprt (job : PrefetchJob) : String :=
  if job.reprtCode = "" then DEFAULT_REPRT_CODE else job.reprtCode

/-- The force decision of `_process_single_step` for one unit. -/
def force_this_step (job : PrefetchJob) (year : Int) (recent : Nat) : Bool :=
  job.forceRefresh || should_force_refresh job year recent

/-- Outcome of one fetch-client call (`get_dps_series`): success returns the
items plus the client's own upsert effect on the cache table; failure raises
`DartApiUnavailable` with a message. -/
inductive FetchOutcome where
  | ok (items : List DpsSeriesItem) (cacheEffect : List DpsCacheRow → List DpsCacheRow)
  | err (message : String)

/-- The fetch client as an oracle over (ticker, year, reprt code, force flag). -/
def Oracle : Type :=
  String → Int → String → Bool → FetchOutcome

/-- Engine state: the job row, the cache table, and two instrumentation logs
(fetch-client invocations; units attempted by the step loop). -/
structure EngineState where
  job : PrefetchJob
  cache : List DpsCacheRow
  fetchCalls : List (String × Int)
  visited : List (String × Int)
deriving DecidableEq, Repr

/-- `_process_single_step`: process one (ticker, year) unit; returns whether
the step loop should continue together with the updated state. -/
def process_single_step (oracle : Oracle) (recent : Nat) (st : EngineState)
    (ticker : String) (year : Int) : Bool × EngineState :=
  let job := st.job
  let reprt := step_reprt job
  if ticker = "" then
    (true, { st with job := { job with skipCount := job.skipCount + 1 } })
  else
    let force := force_this_step job year recent
    if !force && has_cached_value st.cache ticker year reprt then
      (true, { st with job := { job with skipCount := job.skipCount + 1 } })
    else
      let st1 : EngineState := { st with fetchCalls := st.fetchCalls ++ [(ticker, year)] }
      match oracle ticker year reprt force with
      | .err message =>
        if is_missing_corp_code_error message then
          (true, { st1 with
            job := { job with skipCount := job.skipCount + 1, lastError := .some message },
            cache := mark_missing_step st1.cache ticker year reprt message })
        else
          (false,
            { st1 with
              job :=
                { job with
                  failCount := job.failCount + 1
                  lastError := .some message
                  status := .failed } })
      | .ok items cacheEffect =>
        let job1 := { job with lastError := (.none : Option String) }
        let job2 :=
          if items.any (fun it => it.fiscalYear == year && it.dpsCash.isSome) then
            { job1 with successCount := job1.successCount + 1 }
          else
            { job1 with skipCount := job1.skipCount + 1 }
        (true, { st1 with job := job2, cache := cacheEffect st1.cache })

/-- The body of one `while` iteration of `run_job_step` past the cancel and
end-of-list checks: process the unit under the cursor, bump
`processed_count`, and advance the cursor (bumping the status to DONE at the
end of the grid).  Returns whether the loop keeps running. -/
def step_once (oracle : Oracle) (recent : Nat) (tickers : List String)
    (st : EngineState) : Bool × EngineState :=
  let ticker := tickers.getD st.job.cursorIndex ""
  let year := st.job.cursorYear
  let p := process_single_step oracle recent st ticker year
  let st1 : EngineState :=
    { p.2 with
      job := { p.2.job with processedCount := p.2.job.processedCount + 1 }
      visited := p.2.visited ++ [(ticker, year)] }
  if p.1 then
    let j1 : PrefetchJob := { st1.job with cursorYear := st1.job.cursorYear + 1 }
    if j1.endYear < j1.cursorYear then
      let j2 := { j1 with cursorYear := j1.startYear, cursorIndex := j1.cursorIndex + 1 }
      if tickers.length ≤ j2.cursorIndex then
        (false, { st1 with job := { j2 with status := .done } })
      else
        (true, { st1 with job := j2 })
    else
      (true, { st1 with job := j1 })
  else
    (false, st1)

/-- The `while steps < step_limit` loop of `run_job_step`, with the remaining
step budget as fuel. -/
def run_loop (oracle : Oracle) (tickers : List String) (recent : Nat) :
    Nat → EngineState → EngineState
  | 0, st => st
  | fuel + 1, st =>
    if st.job.status = .cancelRequested then
      { st with job := { st.job with status := .cancelled } }
    else if tickers.length ≤ st.job.cursorIndex then
      { st with job := { st.job with status := .done } }
    else
      let s := step_once oracle recent tickers st
      if s.1 then run_loop oracle tickers recent fuel s.2 else s.2

/-- Effective step budget: a non-positive `step_limit` is coerced to 1. -/
def effLimit (stepLimit : Int) : Nat :=
  if stepLimit ≤ 0 then 1 else stepLimit.toNat

/-- `run_job_step`: decode the payload, bail out unless the job is RUNNING or
CANCEL-requested, finish empty jobs as DONE, clamp an out-of-range cursor
year, then run the bounded step loop. -/
def run_job_step (oracle : Oracle) (stepLimit : Int) (st : EngineState) : EngineState :=
  let tickers := (decode_job_payload st.job.tickersJson).1
  let recent := extract_recent_years (decode_job_payload st.job.tickersJson).2
  if st.job.status = .running ∨ st.job.status = .cancelRequested then
    if tickers = [] then
      { st with job := { st.job with status := .done } }
    else
      let job1 :=
        if st.job.cursorYear < st.job.startYear ∨ st.job.endYear < st.job.cursorYear then
          { st.job with cursorYear := st.job.startYear }
        else st.job
      run_loop oracle tickers recent (effLimit stepLimit) { st with job := job1 }
  else
    st

/-- `request_cancel`: no-op on DONE/CANCELLED; otherwise the status is set
directly to CANCELLED. -/
def request_cancel (job : PrefetchJob) : PrefetchJob :=
  if job.status = .done ∨ job.status = .cancelled then job
  else { job with status := .cancelled }

/-- `resume_job`: no-op on DONE/RUNNING; otherwise clamp an out-of-range
cursor year and set the status to RUNNING. -/
def resume_job (job : PrefetchJob) : PrefetchJob :=
  if job.status = .done ∨ job.status = .running then job
  else
    let job1 :=
      if job.cursorYear < job.startYear ∨ job.endYear < job.cursorYear then
        { job with cursorYear := job.startYear }
      else job
    { job1 with status := .running }

/-- `pause_job`: no-op on DONE/CANCELLED; otherwise the status becomes PAUSED. -/
def pause_job (job : PrefetchJob) : PrefetchJob :=
  if job.status = .done ∨ job.status = .cancelled then job
  else { job with status := .paused }

/-- The accumulator loop of `_normalize_tickers` (the `seen` set always equals
the set of elements of the output list in the source). -/
def normalize_tickers_go : List RawVal → List String → List String
  | [], acc => acc
  | v :: rest, acc =>
    let t := normalize_ticker v
    if t = "" ∨ t ∈ acc then normalize_tickers_go rest acc
    else normalize_tickers_go rest (acc ++ [t])

/-- `_normalize_tickers`: normalize each value, drop empties, deduplicate
keeping first occurrences. -/
def normalize_tickers (values : List RawVal) : List String :=
  normalize_tickers_go values []

/-- `_encode_job_payload`: the persisted dict payload. -/
def encode_job_payload (tickers : List String) (recent : Nat) : JobPayload :=
  .dict (.some (tickers.map RawVal.str))
    (.some ⟨.some (.intVal (normalize_recent_years (.intVal (recent : Int))))⟩)

/-- `create_job`: validate the normalized ticker list, order the year bounds,
default the reprt code, clamp the revalidation window, and persist a PAUSED
job with zeroed counters and the cursor at the start; the Python `ValueError`
(`InvalidJobConfig` of the spec) is the error case. -/
def create_job (jobId : String) (tickers : List RawVal) (startYear endYear : Int)
    (reprtCode : String) (forceRefresh : Bool) (jobName : Option String)
    (revalidateRecentYears : PyVal) : Except String PrefetchJob :=
  let normalized := normalize_tickers tickers
  if normalized = [] then
    .error "작업 대상 ticker가 필요합니다."
  else
    let start := min startYear endYear
    let stop := max startYear endYear
    let reprt := if reprtCode = "" then DEFAULT_REPRT_CODE else reprtCode
    let recent := normalize_recent_years revalidateRecentYears
    .ok
      { jobId := jobId
        status := .paused
        jobName := jobName
        tickersJson := .some (encode_job_payload normalized recent)
        startYear := start
        endYear := stop
        reprtCode := reprt
        forceRefresh := forceRefresh
        cursorIndex := 0
        cursorYear := start
        processedCount := 0
        successCount := 0
        skipCount := 0
        failCount := 0
        lastError := .none }

/-- One external driver call against the engine. -/
inductive OpCall where
  | resume
  | pause
  | cancel
  | step (stepLimit : Int)

/-- Apply one driver call to the engine state. -/
def apply_op (oracle : Oracle) (st : EngineState) : OpCall → EngineState
  | .resume => { st with job := resume_job st.job }
  | .pause => { st with job := pause_job st.job }
  | .cancel => { st with job := request_cancel st.job }
  | .step l => run_job_step oracle l st

/-- Apply a sequence of driver calls. -/
def run_ops (oracle : Oracle) (st : EngineState) (ops : List OpCall) : EngineState :=
  ops.foldl (apply_op oracle) st

/-- A fetch outcome that does not halt the job: success, or an
entity-unresolvable (`missing corp code`) error. -/
def NonFatalOutcome : FetchOutcome → Prop
  | .ok _ _ => True
  | .err m => is_missing_corp_code_error m = true

/-- An oracle that never produces a fatal (generic `DartApiUnavailable`) failure. -/
def NoFatal (oracle : Oracle) : Prop :=
  ∀ t y rc f, NonFatalOutcome (oracle t y rc f)

theorem process_empty_ticker (oracle : Oracle) (recent : Nat) (st : EngineState) (y : Int) :
    process_single_step oracle recent st "" y =
      (true, { st with job := { st.job with skipCount := st.job.skipCount + 1 } }) := by
  simp [process_single_step]

theorem process_cache_skip (oracle : Oracle) (recent : Nat) (st : EngineState)
    (t : String) (y : Int)
    (ht : ¬ t = "")
    (hforce : force_this_step st.job y recent = false)
    (hcached : has_cached_value st.cache t y (step_reprt st.job) = true) :
    process_single_step oracle recent st t y =
      (true, { st with job := { st.job with skipCount := st.job.skipCount + 1 } }) := by
  simp [process_single_step, ht, hforce, hcached]

theorem process_fetch_missing (oracle : Oracle) (recent : Nat) (st : EngineState)
    (t : String) (y : Int) (msg : String)
    (ht : ¬ t = "")
    (hfetch : force_this_step st.job y recent = true ∨
      has_cached_value st.cache t y (step_reprt st.job) = false)
    (horacle : oracle t y (step_reprt st.job) (force_this_step st.job y recent) = .err msg)
    (hmiss : is_missing_corp_code_error msg = true) :
    process_single_step oracle recent st t y =
      (true,
        { st with
          job := { st.job with skipCount := st.job.skipCount + 1, lastError := .some msg }
          cache := mark_missing_step st.cache t y (step_reprt st.job) msg
          fetchCalls := st.fetchCalls ++ [(t, y)] }) := by
  have hcond : (!(force_this_step st.job y recent) &&
      has_cached_value st.cache t y (step_reprt st.job)) = false := by
    rcases hfetch with h | h <;> simp [h]
  simp [process_single_step, ht, hcond, horacle, hmiss]

theorem process_fetch_fatal (oracle : Oracle) (recent : Nat) (st : EngineState)
    (t : String) (y : Int) (msg : String)
    (ht : ¬ t = "")
    (hfetch : force_this_step st.job y recent = true ∨
      has_cached_value st.cache t y (step_reprt st.job) = false)
    (horacle : oracle t y (step_reprt st.job) (force_this_step st.job y recent) = .err msg)
    (hmiss : is_missing_corp_code_error msg = false) :
    process_single_step oracle recent st t y =
      (false,
        { st with
          job :=
            { st.job with
              failCount := st.job.failCount + 1
              lastError := .some msg
              status := .failed }
          fetchCalls := st.fetchCalls ++ [(t, y)] }) := by
  have hcond : (!(force_this_step st.job y recent) &&
      has_cached_value st.cache t y (step_reprt st.job)) = false := by
    rcases hfetch with h | h <;> simp [h]
  simp [process_single_step, ht, hcond, horacle, hmiss]

theorem process_fetch_ok (oracle : Oracle) (recent : Nat) (st : EngineState)
    (t : String) (y : Int) (items : List DpsSeriesItem)
    (eff : List DpsCacheRow → List DpsCacheRow)
    (ht : ¬ t = "")
    (hfetch : force_this_step st.job y recent = true ∨
      has_cached_value st.cache t y (step_reprt st.job) = false)
    (horacle : oracle t y (step_reprt st.job) (force_this_step st.job y recent) = .ok items eff) :
    process_single_step oracle recent st t y =
      (true,
        { st with
          job :=
            if items.any (fun it => it.fiscalYear == y && it.dpsCash.isSome) then
              { st.job with lastError := .none, successCount := st.job.successCount + 1 }
            else
              { st.job with lastError := .none, skipCount := st.job.skipCount + 1 }
          cache := eff st.cache
          fetchCalls := st.fetchCalls ++ [(t, y)] }) := by
  have hcond : (!(force_this_step st.job y recent) &&
      has_cached_value st.cache t y (step_reprt st.job)) = false := by
    rcases hfetch with h | h <;> simp [h]
  simp only [process_single_step, ht, if_false, hcond, Bool.false_eq_true, horacle]

/-- Frame: one unit never touches the cursor, the year bounds, the payload,
the policy flags, the processed counter, or the visited log. -/
theorem process_frame (oracle : Oracle) (recent : Nat) (st : EngineState)
    (t : String) (y : Int) :
    (process_single_step oracle recent st t y).2.job.cursorIndex = st.job.cursorIndex ∧
    (process_single_step oracle recent st t y).2.job.cursorYear = st.job.cursorYear ∧
    (process_single_step oracle recent st t y).2.job.startYear = st.job.startYear ∧
    (process_single_step oracle recent st t y).2.job.endYear = st.job.endYear ∧
    (process_single_step oracle recent st t y).2.job.tickersJson = st.job.tickersJson ∧
    (process_single_step oracle recent st t y).2.job.forceRefresh = st.job.forceRefresh ∧
    (process_single_step oracle recent st t y).2.job.reprtCode = st.job.reprtCode ∧
    (process_single_step oracle recent st t y).2.job.processedCount = st.job.processedCount ∧
    (process_single_step oracle recent st t y).2.visited = st.visited := by
  simp only [process_single_step]
  split
  · simp
  · split
    · simp
    · split
      · split <;> simp
      · split <;> simp

/-- Under a non-fatal fetch outcome, one unit reports "continue" and leaves
the status unchanged. -/
theorem process_nonfatal (oracle : Oracle) (recent : Nat) (st : EngineState)
    (t : String) (y : Int)
    (hnf : NonFatalOutcome (oracle t y (step_reprt st.job) (force_this_step st.job y recent))) :
    (process_single_step oracle recent st t y).1 = true ∧
    (process_single_step oracle recent st t y).2.job.status = st.job.status := by
  by_cases ht : t = ""
  · subst ht
    rw [process_empty_ticker]
    exact ⟨rfl, rfl⟩
  · by_cases hskip : force_this_step st.job y recent = false ∧
      has_cached_value st.cache t y (step_reprt st.job) = true
    · rw [process_cache_skip oracle recent st t y ht hskip.1 hskip.2]
      exact ⟨rfl, rfl⟩
    · have hfetch : force_this_step st.job y recent = true ∨
          has_cached_value st.cache t y (step_reprt st.job) = false := by
        cases hF : force_this_step st.job y recent
        · cases hC : has_cached_value st.cache t y (step_reprt st.job)
          · exact Or.inr rfl
          · exact absurd ⟨hF, hC⟩ hskip
        · exact Or.inl rfl
      rcases horacle : oracle t y (step_reprt st.job) (force_this_step st.job y recent) with
        ⟨items, eff⟩ | msg
      · rw [process_fetch_ok oracle recent st t y items eff ht hfetch horacle]
        refine ⟨rfl, ?_⟩
        by_cases hi : items.any (fun it => it.fiscalYear == y && it.dpsCash.isSome)
        · simp [hi]
        · simp [hi]
      · have hmiss : is_missing_corp_code_error msg = true := by
          have h := hnf
          rw [horacle] at h
          exact h
        rw [process_fetch_missing oracle recent st t y msg ht hfetch horacle hmiss]
        exact ⟨rfl, rfl⟩

/-- The ascending list of years `start, start+1, …, stop` (empty when
`stop < start`), written with an explicit length counter. -/
def year_list_go : Nat → Int → List Int
  | 0, _ => []
  | n + 1, s => s :: year_list_go n (s + 1)

/-- The inclusive ascending year range of a job. -/
def year_list (start stop : Int) : List Int :=
  year_list_go (stop + 1 - start).toNat start

/-- The full unit grid of a job: tickers in stored order, years ascending
within each ticker. -/
def unit_seq (tickers : List String) (start stop : Int) : List (String × Int) :=
  tickers.flatMap (fun t => (year_list start stop).map (fun y => (t, y)))

/-- The units still to visit from cursor position `(i, y)`: the remaining
years of ticker `i`, then the full ranges of the later tickers. -/
def rest_seq (tickers : List String) (start stop : Int) (i : Nat) (y : Int) :
    List (String × Int) :=
  match tickers.drop i with
  | [] => []
  | t :: rest => (year_list y stop).map (fun yy => (t, yy)) ++ unit_seq rest start stop

theorem year_list_cons (y stop : Int) (h : y ≤ stop) :
    year_list y stop = y :: year_list (y + 1) stop := by
  have hk : (stop + 1 - y).toNat = (stop + 1 - (y + 1)).toNat + 1 := by omega
  rw [year_list, year_list, hk]
  rfl

theorem year_list_nil (y stop : Int) (h : stop < y) : year_list y stop = [] := by
  have hk : (stop + 1 - y).toNat = 0 := by omega
  rw [year_list, hk]
  rfl

theorem rest_seq_at_start (tickers : List String) (s e : Int) (j : Nat) :
    rest_seq tickers s e j s = unit_seq (tickers.drop j) s e := by
  cases h : tickers.drop j with
  | nil => simp [rest_seq, h, unit_seq]
  | cons t rest => simp [rest_seq, h, unit_seq]

theorem rest_seq_zero (tickers : List String) (s e : Int) :
    rest_seq tickers s e 0 s = unit_seq tickers s e := by
  have h := rest_seq_at_start tickers s e 0
  simpa using h

theorem rest_seq_step_year (tickers : List String) (s e : Int) (i : Nat) (y : Int)
    (hi : i < tickers.length) (hy : y < e) :
    rest_seq tickers s e i y = (tickers.getD i "", y) :: rest_seq tickers s e i (y + 1) := by
  rw [rest_seq, rest_seq, List.drop_eq_getElem_cons hi, List.getD_eq_getElem _ _ hi,
    year_list_cons y e (le_of_lt hy)]
  rfl

theorem rest_seq_step_ticker (tickers : List String) (s e : Int) (i : Nat)
    (hi : i < tickers.length) :
    rest_seq tickers s e i e = (tickers.getD i "", e) :: rest_seq tickers s e (i + 1) s := by
  rw [rest_seq, List.drop_eq_getElem_cons hi, List.getD_eq_getElem _ _ hi,
    year_list_cons e e le_rfl, year_list_nil (e + 1) e (by omega),
    rest_seq_at_start]
  rfl

theorem rest_seq_ne_nil (tickers : List String) (s e : Int) (i : Nat) (y : Int)
    (hi : i < tickers.length) (hy : y ≤ e) :
    rest_seq tickers s e i y ≠ [] := by
  rw [rest_seq, List.drop_eq_getElem_cons hi, year_list_cons y e hy]
  simp

/-- Well-formed mid-traversal state of the step loop: RUNNING, cursor inside
the ticker list, cursor year inside the period range. -/
def LoopWF (tickers : List String) (st : EngineState) : Prop :=
  st.job.status = .running ∧ st.job.cursorIndex < tickers.length ∧
  st.job.startYear ≤ st.job.cursorYear ∧ st.job.cursorYear ≤ st.job.endYear

theorem step_once_mid (oracle : Oracle) (recent : Nat) (tickers : List String)
    (st : EngineState)
    (hnf : NonFatalOutcome (oracle (tickers.getD st.job.cursorIndex "") st.job.cursorYear
      (step_reprt st.job) (force_this_step st.job st.job.cursorYear recent)))
    (hwf : LoopWF tickers st)
    (hnotlast : st.job.cursorYear < st.job.endYear ∨ st.job.cursorIndex + 1 < tickers.length) :
    (step_once oracle recent tickers st).1 = true ∧
    LoopWF tickers (step_once oracle recent tickers st).2 ∧
    (step_once oracle recent tickers st).2.visited =
      st.visited ++ [(tickers.getD st.job.cursorIndex "", st.job.cursorYear)] ∧
    (step_once oracle recent tickers st).2.job.startYear = st.job.startYear ∧
    (step_once oracle recent tickers st).2.job.endYear = st.job.endYear ∧
    (step_once oracle recent tickers st).2.job.tickersJson = st.job.tickersJson ∧
    rest_seq tickers st.job.startYear st.job.endYear st.job.cursorIndex st.job.cursorYear =
      (tickers.getD st.job.cursorIndex "", st.job.cursorYear) ::
        rest_seq tickers st.job.startYear st.job.endYear
          (step_once oracle recent tickers st).2.job.cursorIndex
          (step_once oracle recent tickers st).2.job.cursorYear := by
  obtain ⟨hrun, hidx, hylo, hyhi⟩ := hwf
  obtain ⟨hp1, hstat⟩ := process_nonfatal oracle recent st _ _ hnf
  obtain ⟨hci, hcy, hsy, hey, htj, hfr, hrc, hpc, hv⟩ :=
    process_frame oracle recent st (tickers.getD st.job.cursorIndex "") st.job.cursorYear
  simp only [step_once, if_pos hp1]
  by_cases hylt : st.job.cursorYear < st.job.endYear
  · rw [if_neg (by simp only [hey, hcy]; omega)]
    refine ⟨rfl, ?_, ?_, ?_, ?_, ?_, ?_⟩
    · exact ⟨by simp only [hstat, hrun], by simp only [hci]; omega,
        by simp only [hsy, hcy]; omega, by simp only [hey, hcy]; omega⟩
    · simp only [hv]
    · simp only [hsy]
    · simp only [hey]
    · simp only [htj]
    · simp only [hci, hcy]
      exact rest_seq_step_year tickers _ _ _ _ hidx hylt
  · have hyeq : st.job.cursorYear = st.job.endYear := by omega
    have hilt : st.job.cursorIndex + 1 < tickers.length := by
      rcases hnotlast with h | h
      · omega
      · exact h
    rw [if_pos (by simp only [hey, hcy]; omega)]
    rw [if_neg (by simp only [hci]; omega)]
    refine ⟨rfl, ?_, ?_, ?_, ?_, ?_, ?_⟩
    · exact ⟨by simp only [hstat, hrun], by simp only [hci]; omega,
        by simp only [hsy]; omega, by simp only [hsy, hey]; omega⟩
    · simp only [hv]
    · simp only [hsy]
    · simp only [hey]
    · simp only [htj]
    · simp only [hci, hcy, hsy]
      rw [hyeq]
      exact rest_seq_step_ticker tickers _ _ _ hidx

theorem step_once_last (oracle : Oracle) (recent : Nat) (tickers : List String)
    (st : EngineState)
    (hnf : NonFatalOutcome (oracle (tickers.getD st.job.cursorIndex "") st.job.cursorYear
      (step_reprt st.job) (force_this_step st.job st.job.cursorYear recent)))
    (hwf : LoopWF tickers st)
    (hyeq : st.job.cursorYear = st.job.endYear)
    (hieq : st.job.cursorIndex + 1 = tickers.length) :
    (step_once oracle recent tickers st).1 = false ∧
    (step_once oracle recent tickers st).2.job.status = .done ∧
    (step_once oracle recent tickers st).2.job.cursorIndex = tickers.length ∧
    (step_once oracle recent tickers st).2.visited =
      st.visited ++ [(tickers.getD st.job.cursorIndex "", st.job.cursorYear)] ∧
    (step_once oracle recent tickers st).2.job.startYear = st.job.startYear ∧
    (step_once oracle recent tickers st).2.job.endYear = st.job.endYear ∧
    (step_once oracle recent tickers st).2.job.tickersJson = st.job.tickersJson ∧
    rest_seq tickers st.job.startYear st.job.endYear st.job.cursorIndex st.job.cursorYear =
      [(tickers.getD st.job.cursorIndex "", st.job.cursorYear)] := by
  obtain ⟨hrun, hidx, hylo, hyhi⟩ := hwf
  obtain ⟨hp1, hstat⟩ := process_nonfatal oracle recent st _ _ hnf
  obtain ⟨hci, hcy, hsy, hey, htj, hfr, hrc, hpc, hv⟩ :=
    process_frame oracle recent st (tickers.getD st.job.cursorIndex "") st.job.cursorYear
  have hnil : tickers.drop (st.job.cursorIndex + 1) = [] := by
    rw [hieq]
    exact List.drop_length tickers
  simp only [step_once, if_pos hp1]
  rw [if_pos (by simp only [hey, hcy]; omega)]
  rw [if_pos (by simp only [hci]; omega)]
  refine ⟨rfl, rfl, ?_, ?_, ?_, ?_, ?_, ?_⟩
  · simp only [hci]
    omega
  · simp only [hv]
  · simp only [hsy]
  · simp only [hey]
  · simp only [htj]
  · rw [hyeq, rest_seq_step_ticker tickers _ _ _ hidx]
    simp only [rest_seq, hnil]

theorem step_once_fatal (oracle : Oracle) (recent : Nat) (tickers : List String)
    (st : EngineState) (msg : String)
    (ht : ¬ tickers.getD st.job.cursorIndex "" = "")
    (hfetch : force_this_step st.job st.job.cursorYear recent = true ∨
      has_cached_value st.cache (tickers.getD st.job.cursorIndex "") st.job.cursorYear
        (step_reprt st.job) = false)
    (horacle : oracle (tickers.getD st.job.cursorIndex "") st.job.cursorYear
      (step_reprt st.job) (force_this_step st.job st.job.cursorYear recent) = .err msg)
    (hmiss : is_missing_corp_code_error msg = false) :
    step_once oracle recent tickers st =
      (false,
        { st with
          job :=
            { st.job with
              processedCount := st.job.processedCount + 1
              failCount := st.job.failCount + 1
              lastError := .some msg
              status := .failed }
          fetchCalls := st.fetchCalls ++ [(tickers.getD st.job.cursorIndex "", st.job.cursorYear)]
          visited := st.visited ++ [(tickers.getD st.job.cursorIndex "", st.job.cursorYear)] }) := by
  have hp := process_fetch_fatal oracle recent st (tickers.getD st.job.cursorIndex "")
    st.job.cursorYear msg ht hfetch horacle hmiss
  simp only [step_once, hp, Bool.false_eq_true, if_false]

theorem run_loop_spec (oracle : Oracle) (hnf : NoFatal oracle) (tickers : List String)
    (recent : Nat) :
    ∀ (fuel : Nat) (st : EngineState), LoopWF tickers st →
    ∀ rest, rest = rest_seq tickers st.job.startYear st.job.endYear
      st.job.cursorIndex st.job.cursorYear →
    ∀ res, res = run_loop oracle tickers recent fuel st →
    res.visited = st.visited ++ rest.take fuel ∧
    res.job.startYear = st.job.startYear ∧
    res.job.endYear = st.job.endYear ∧
    res.job.tickersJson = st.job.tickersJson ∧
    (if fuel < rest.length then
      LoopWF tickers res ∧
      rest_seq tickers st.job.startYear st.job.endYear res.job.cursorIndex
        res.job.cursorYear = rest.drop fuel
    else
      res.job.status = .done ∧ res.job.cursorIndex = tickers.length) := by
  intro fuel
  induction fuel with
  | zero =>
    intro st hwf rest hrest res hres
    obtain ⟨hrun, hidx, hylo, hyhi⟩ := hwf
    have hne : rest_seq tickers st.job.startYear st.job.endYear
        st.job.cursorIndex st.job.cursorYear ≠ [] :=
      rest_seq_ne_nil tickers _ _ _ _ hidx hyhi
    subst hres
    subst hrest
    refine ⟨by simp [run_loop], by simp [run_loop], by simp [run_loop],
      by simp [run_loop], ?_⟩
    rw [if_pos (List.length_pos.mpr hne)]
    exact ⟨by simpa [run_loop] using ⟨hrun, hidx, hylo, hyhi⟩, by simp [run_loop]⟩
  | succ fuel ih =>
    intro st hwf rest hrest res hres
    obtain ⟨hrun, hidx, hylo, hyhi⟩ := hwf
    have hnc : ¬ st.job.status = JobStatus.cancelRequested := by
      rw [hrun]
      intro h
      cases h
    have hnl : ¬ tickers.length ≤ st.job.cursorIndex := not_le.mpr hidx
    simp only [run_loop, if_neg hnc, if_neg hnl] at hres
    by_cases hlast : st.job.cursorYear = st.job.endYear ∧
        st.job.cursorIndex + 1 = tickers.length
    · obtain ⟨hs0, hs1, hs2, hs3, hs4, hs5, hs6, hs7⟩ :=
        step_once_last oracle recent tickers st (hnf _ _ _ _) ⟨hrun, hidx, hylo, hyhi⟩
          hlast.1 hlast.2
      simp only [hs0, Bool.false_eq_true, if_false] at hres
      subst hres
      rw [hrest, hs7]
      refine ⟨by rw [hs3]; simp, hs4, hs5, hs6, ?_⟩
      rw [if_neg (by simp)]
      exact ⟨hs1, hs2⟩
    · have hnotlast : st.job.cursorYear < st.job.endYear ∨
          st.job.cursorIndex + 1 < tickers.length := by omega
      obtain ⟨hm0, hmwf, hmv, hms, hme, hmt, hmrest⟩ :=
        step_once_mid oracle recent tickers st (hnf _ _ _ _) ⟨hrun, hidx, hylo, hyhi⟩ hnotlast
      simp only [hm0, if_true] at hres
      obtain ⟨ihv, ihs, ihe, iht, ihif⟩ :=
        ih (step_once oracle recent tickers st).2 hmwf _ rfl res hres
      have hrw : rest_seq tickers (step_once oracle recent tickers st).2.job.startYear
          (step_once oracle recent tickers st).2.job.endYear
          (step_once oracle recent tickers st).2.job.cursorIndex
          (step_once oracle recent tickers st).2.job.cursorYear =
          rest_seq tickers st.job.startYear st.job.endYear
            (step_once oracle recent tickers st).2.job.cursorIndex
            (step_once oracle recent tickers st).2.job.cursorYear := by
        rw [hms, hme]
      have hcons : rest = (tickers.getD st.job.cursorIndex "", st.job.cursorYear) ::
          rest_seq tickers st.job.startYear st.job.endYear
            (step_once oracle recent tickers st).2.job.cursorIndex
            (step_once oracle recent tickers st).2.job.cursorYear := by
        rw [hrest, hmrest]
      refine ⟨?_, ?_, ?_, ?_, ?_⟩
      · rw [ihv, hrw, hmv, hcons]
        simp [List.take_cons]
      · rw [ihs, hms]
      · rw [ihe, hme]
      · rw [iht, hmt]
      · rw [hrw] at ihif
        by_cases hlt : fuel + 1 < rest.length
        · rw [if_pos hlt]
          have hlt2 : fuel < (rest_seq tickers st.job.startYear st.job.endYear
              (step_once oracle recent tickers st).2.job.cursorIndex
              (step_once oracle recent tickers st).2.job.cursorYear).length := by
            rw [hcons] at hlt
            simpa using hlt
          rw [if_pos hlt2] at ihif
          obtain ⟨ihwf, ihrest⟩ := ihif
          refine ⟨ihwf, ?_⟩
          rw [hms, hme] at ihrest
          rw [ihrest, hcons]
          rfl
        · rw [if_neg hlt]
          have hlt2 : ¬ fuel < (rest_seq tickers st.job.startYear st.job.endYear
              (step_once oracle recent tickers st).2.job.cursorIndex
              (step_once oracle recent tickers st).2.job.cursorYear).length := by
            rw [hcons] at hlt
            simpa using hlt
          rw [if_neg hlt2] at ihif
          exact ihif

/-- `run_job_step` is the identity unless the job is RUNNING or
CANCEL-requested. -/
theorem run_job_step_noop (oracle : Oracle) (l : Int) (st : EngineState)
    (h1 : ¬ st.job.status = .running) (h2 : ¬ st.job.status = .cancelRequested) :
    run_job_step oracle l st = st := by
  simp [run_job_step, h1, h2]

/-- One `run_job_step` call on a well-formed RUNNING job behaves exactly like
the bounded loop with `effLimit` fuel. -/
theorem run_job_step_spec (oracle : Oracle) (hnf : NoFatal oracle) (st : EngineState)
    (l : Int)
    (hwf : LoopWF (decode_job_payload st.job.tickersJson).1 st) :
    ∀ rest, rest = rest_seq (decode_job_payload st.job.tickersJson).1 st.job.startYear
      st.job.endYear st.job.cursorIndex st.job.cursorYear →
    ∀ res, res = run_job_step oracle l st →
    res.visited = st.visited ++ rest.take (effLimit l) ∧
    res.job.startYear = st.job.startYear ∧
    res.job.endYear = st.job.endYear ∧
    res.job.tickersJson = st.job.tickersJson ∧
    (if effLimit l < rest.length then
      LoopWF (decode_job_payload st.job.tickersJson).1 res ∧
      rest_seq (decode_job_payload st.job.tickersJson).1 st.job.startYear st.job.endYear
        res.job.cursorIndex res.job.cursorYear = rest.drop (effLimit l)
    else
      res.job.status = .done ∧
      res.job.cursorIndex = (decode_job_payload st.job.tickersJson).1.length) := by
  intro rest hrest res hres
  obtain ⟨hrun, hidx, hylo, hyhi⟩ := hwf
  have hor : st.job.status = .running ∨ st.job.status = .cancelRequested := Or.inl hrun
  have htne : ¬ (decode_job_payload st.job.tickersJson).1 = [] := by
    intro h
    rw [h] at hidx
    simp at hidx
  have hclamp : ¬ (st.job.cursorYear < st.job.startYear ∨
      st.job.endYear < st.job.cursorYear) := by omega
  simp only [run_job_step, if_pos hor, if_neg htne, if_neg hclamp] at hres
  exact run_loop_spec oracle hnf _ _ (effLimit l) st ⟨hrun, hidx, hylo, hyhi⟩ rest hrest res hres

/-- Total effective step budget of a sequence of `run_job_step` calls. -/
def total_fuel (limits : List Int) : Nat :=
  (limits.map effLimit).sum

/-- Once DONE, repeated `run_job_step` calls leave the state untouched. -/
theorem run_job_steps_done (oracle : Oracle) (limits : List Int) (st : EngineState)
    (h : st.job.status = .done) :
    limits.foldl (fun s l => run_job_step oracle l s) st = st := by
  induction limits with
  | nil => rfl
  | cons l ls ih =>
    have hno : run_job_step oracle l st = st :=
      run_job_step_noop oracle l st (by rw [h]; intro hc; cases hc)
        (by rw [h]; intro hc; cases hc)
    rw [List.foldl_cons, hno, ih]

/-- A sequence of `run_job_step` calls on a well-formed RUNNING job visits the
pending units in order, up to the total budget, and finishes in DONE once the
budget covers the whole rest. -/
theorem run_steps_spec (oracle : Oracle) (hnf : NoFatal oracle) :
    ∀ (limits : List Int) (st : EngineState),
    LoopWF (decode_job_payload st.job.tickersJson).1 st →
    ∀ rest, rest = rest_seq (decode_job_payload st.job.tickersJson).1 st.job.startYear
      st.job.endYear st.job.cursorIndex st.job.cursorYear →
    ∀ res, res = limits.foldl (fun s l => run_job_step oracle l s) st →
    res.visited = st.visited ++ rest.take (total_fuel limits) ∧
    res.job.startYear = st.job.startYear ∧
    res.job.endYear = st.job.endYear ∧
    res.job.tickersJson = st.job.tickersJson ∧
    (if total_fuel limits < rest.length then
      LoopWF (decode_job_payload st.job.tickersJson).1 res ∧
      rest_seq (decode_job_payload st.job.tickersJson).1 st.job.startYear st.job.endYear
        res.job.cursorIndex res.job.cursorYear = rest.drop (total_fuel limits)
    else
      res.job.status = .done ∧
      res.job.cursorIndex = (decode_job_payload st.job.tickersJson).1.length) := by
  intro limits
  induction limits with
  | nil =>
    intro st hwf rest hrest res hres
    obtain ⟨hrun, hidx, hylo, hyhi⟩ := hwf
    have hne : rest ≠ [] := by
      rw [hrest]
      exact rest_seq_ne_nil _ _ _ _ _ hidx hyhi
    subst hres
    refine ⟨by simp [total_fuel], rfl, rfl, rfl, ?_⟩
    rw [if_pos (by simpa [total_fuel] using List.length_pos.mpr hne)]
    refine ⟨⟨hrun, hidx, hylo, hyhi⟩, ?_⟩
    rw [hrest]
    simp [total_fuel]
  | cons l ls ih =>
    intro st hwf rest hrest res hres
    rw [List.foldl_cons] at hres
    obtain ⟨h1v, h1s, h1e, h1t, h1if⟩ :=
      run_job_step_spec oracle hnf st l hwf rest hrest (run_job_step oracle l st) rfl
    have htotal : total_fuel (l :: ls) = effLimit l + total_fuel ls := by
      simp [total_fuel]
    by_cases hcase : effLimit l < rest.length
    · rw [if_pos hcase] at h1if
      obtain ⟨h1wf, h1rest⟩ := h1if
      have h1wf' : LoopWF (decode_job_payload
          (run_job_step oracle l st).job.tickersJson).1 (run_job_step oracle l st) := by
        rw [h1t]
        exact h1wf
      have h2 := ih (run_job_step oracle l st) h1wf' _ rfl res hres
      rw [h1t] at h2
      rw [h1s] at h2
      rw [h1e] at h2
      rw [h1rest] at h2
      rw [h1v] at h2
      obtain ⟨h2v, h2s, h2e, h2t, h2if⟩ := h2
      have hdl : (rest.drop (effLimit l)).length = rest.length - effLimit l := by
        simp
      refine ⟨?_, h2s, h2e, h2t, ?_⟩
      · rw [h2v, htotal, List.take_add]
        simp
      · by_cases hfull : total_fuel (l :: ls) < rest.length
        · rw [if_pos hfull]
          rw [if_pos (by rw [hdl]; omega)] at h2if
          obtain ⟨h2wf, h2rest⟩ := h2if
          refine ⟨h2wf, ?_⟩
          rw [h2rest, List.drop_drop, htotal, Nat.add_comm]
        · rw [if_neg hfull]
          rw [if_neg (by rw [hdl]; omega)] at h2if
          exact h2if
    · rw [if_neg hcase] at h1if
      obtain ⟨h1done, h1ci⟩ := h1if
      have hres' : res = run_job_step oracle l st := by
        rw [hres, run_job_steps_done oracle ls _ h1done]
      subst hres'
      have htake : rest.take (effLimit l) = rest := List.take_of_length_le (by omega)
      have htake2 : rest.take (total_fuel (l :: ls)) = rest :=
        List.take_of_length_le (by omega)
      refine ⟨by rw [h1v, htake, htake2], h1s, h1e, h1t, ?_⟩
      rw [if_neg (by omega)]
      exact ⟨h1done, h1ci⟩

/-- Driver calls of any kind do not touch a DONE job. -/
theorem apply_op_done (oracle : Oracle) (st : EngineState) (op : OpCall)
    (h : st.job.status = .done) :
    apply_op oracle st op = st := by
  cases op with
  | resume =>
    show { st with job := resume_job st.job } = st
    rw [resume_job, if_pos (Or.inl h)]
  | pause =>
    show { st with job := pause_job st.job } = st
    rw [pause_job, if_pos (Or.inl h)]
  | cancel =>
    show { st with job := request_cancel st.job } = st
    rw [request_cancel, if_pos (Or.inl h)]
  | step l =>
    exact run_job_step_noop oracle l st (by rw [h]; intro hc; cases hc)
      (by rw [h]; intro hc; cases hc)

/-- No sequence of driver calls touches a DONE job. -/
theorem run_ops_done (oracle : Oracle) (st : EngineState) (ops : List OpCall)
    (h : st.job.status = .done) :
    run_ops oracle st ops = st := by
  induction ops with
  | nil => rfl
  | cons op rest ih =>
    show run_ops oracle (apply_op oracle st op) rest = st
    rw [apply_op_done oracle st op h, ih]

/-- `run_ops` over pure step calls is the fold of `run_job_step`. -/
theorem run_ops_steps (oracle : Oracle) (st : EngineState) (limits : List Int) :
    run_ops oracle st (limits.map OpCall.step) =
      limits.foldl (fun s l => run_job_step oracle l s) st := by
  rw [run_ops, List.foldl_map]
  rfl

/-- A RUNNING single-ticker demo job used by several concrete scenarios. -/
def demoJob : PrefetchJob :=
  { jobId := "job-1"
    status := .running
    jobName := .none
    tickersJson := .some (.dict (.some [.str "AAA"]) .none)
    startYear := 2020
    endYear := 2021
    reprtCode := "11011"
    forceRefresh := false
    cursorIndex := 0
    cursorYear := 2020
    processedCount := 0
    successCount := 0
    skipCount := 0
    failCount := 0
    lastError := .none }

/-- An always-successful fetch client that returns one real value per call
and leaves the cache untouched. -/
def okOracle : Oracle := fun t y _ _ =>
  .ok [{ ticker := t, fiscalYear := y, reprtCode := "11011", dpsCash := .some 100,
         currency := .some "KRW" }] id

/-- A demo state whose job already carries the CANCEL-requested status. -/
def cancelRequestedState : EngineState :=
  { job := { demoJob with status := .cancelRequested }, cache := [],
    fetchCalls := [], visited := [] }

/-- C1: `request_cancel` on a RUNNING (non-terminal) job sets the status
directly to CANCELLED, not to CANCEL_REQUESTED; the deferred transition
branch of `run_job_step` (CANCEL_REQUESTED → CANCELLED at the start of the
next call, before any unit) does exist but nothing in the code ever produces
the CANCEL_REQUESTED status. -/
theorem request_cancel_is_immediate :
    demoJob.status = .running ∧
    (request_cancel demoJob).status = .cancelled ∧
    ¬ (request_cancel demoJob).status = .cancelRequested ∧
    (run_job_step okOracle 5 cancelRequestedState).job.status = .cancelled ∧
    (run_job_step okOracle 5 cancelRequestedState).visited = [] := by
  refine ⟨rfl, rfl, by decide, rfl, rfl⟩

/-- C10: when the persisted payload decodes to no tickers (NULL payload,
malformed JSON, or no valid ticker after normalization), `run_job_step` on a
RUNNING job only flips the status to DONE and changes nothing else. -/
theorem empty_payload_job_done (oracle : Oracle) (l : Int) (st : EngineState)
    (hstatus : st.job.status = .running)
    (hdec : (decode_job_payload st.job.tickersJson).1 = []) :
    run_job_step oracle l st = { st with job := { st.job with status := .done } } ∧
    (decode_job_payload .none).1 = [] ∧
    (decode_job_payload (.some .malformed)).1 = [] ∧
    (∀ raw opts, (∀ v ∈ raw, normalize_ticker v = "") →
      (decode_job_payload (.some (.dict (.some raw) opts))).1 = []) ∧
    (∀ raw, (∀ v ∈ raw, normalize_ticker v = "") →
      (decode_job_payload (.some (.list raw))).1 = []) := by
  refine ⟨?_, rfl, rfl, ?_, ?_⟩
  · simp only [run_job_step, if_pos (Or.inl hstatus), if_pos hdec]
  · intro raw opts h
    simp only [decode_job_payload, Option.getD_some, clean_tickers]
    rw [List.filter_eq_nil_iff]
    intro a ha
    rw [List.mem_map] at ha
    obtain ⟨v, hv, rfl⟩ := ha
    simp [h v hv]
  · intro raw h
    simp only [decode_job_payload, clean_tickers]
    rw [List.filter_eq_nil_iff]
    intro a ha
    rw [List.mem_map] at ha
    obtain ⟨v, hv, rfl⟩ := ha
    simp [h v hv]

/-- Demo state with a malformed persisted payload. -/
def malformedPayloadState : EngineState :=
  { job :=
      { demoJob with
        tickersJson := .some .malformed
        processedCount := 7
        skipCount := 3
        cursorIndex := 1
        cursorYear := 2021 }
    cache := []
    fetchCalls := []
    visited := [] }

theorem empty_payload_job_done_witness :
    run_job_step okOracle 3 malformedPayloadState =
      { malformedPayloadState with
        job := { malformedPayloadState.job with status := .done } } :=
  (empty_payload_job_done okOracle 3 malformedPayloadState rfl rfl).1

/-- C6: with the force flag off for the unit, any cached record for the key
makes the unit a skip: `skip_count` is bumped, the fetch client is not
invoked, the cache is untouched — and therefore a second pass over the same
unit skips again without ever fetching. -/
theorem cached_unit_skips_without_fetch (oracle : Oracle) (recent : Nat)
    (st : EngineState) (t : String) (y : Int)
    (ht : ¬ t = "")
    (hforce : force_this_step st.job y recent = false)
    (hcached : has_cached_value st.cache t y (step_reprt st.job) = true) :
    (process_single_step oracle recent st t y).1 = true ∧
    (process_single_step oracle recent st t y).2.job.skipCount = st.job.skipCount + 1 ∧
    (process_single_step oracle recent st t y).2.fetchCalls = st.fetchCalls ∧
    (process_single_step oracle recent st t y).2.cache = st.cache ∧
    (process_single_step oracle recent
      (process_single_step oracle recent st t y).2 t y).2.job.skipCount =
      st.job.skipCount + 2 ∧
    (process_single_step oracle recent
      (process_single_step oracle recent st t y).2 t y).2.fetchCalls = st.fetchCalls := by
  have h1 := process_cache_skip oracle recent st t y ht hforce hcached
  have h2 := process_cache_skip oracle recent
    { st with job := { st.job with skipCount := st.job.skipCount + 1 } } t y ht hforce hcached
  refine ⟨by rw [h1], by rw [h1], by rw [h1], by rw [h1], ?_, ?_⟩
  · simp only [h1, h2]
  · simp only [h1, h2]

/-- Demo: a cache row holding a real value for (AAA, 2020). -/
def cachedRowDemo : DpsCacheRow :=
  { ticker := "AAA", fiscalYear := 2020, reprtCode := "11011", currency := .some "KRW",
    dpsCash := .some 55, parserVersion := "v1", rawPayload := .none }

/-- Demo state whose cache already holds (AAA, 2020). -/
def cachedUnitState : EngineState :=
  { job := demoJob, cache := [cachedRowDemo], fetchCalls := [], visited := [] }

theorem cached_unit_skips_without_fetch_witness :
    (process_single_step okOracle 0 cachedUnitState "AAA" 2020).1 = true ∧
    (process_single_step okOracle 0 cachedUnitState "AAA" 2020).2.job.skipCount = 1 ∧
    (process_single_step okOracle 0 cachedUnitState "AAA" 2020).2.fetchCalls = [] ∧
    (process_single_step okOracle 0 cachedUnitState "AAA" 2020).2.cache = [cachedRowDemo] ∧
    (process_single_step okOracle 0
      (process_single_step okOracle 0 cachedUnitState "AAA" 2020).2 "AAA" 2020).2.job.skipCount = 2 ∧
    (process_single_step okOracle 0
      (process_single_step okOracle 0 cachedUnitState "AAA" 2020).2 "AAA" 2020).2.fetchCalls = [] :=
  cached_unit_skips_without_fetch okOracle 0 cachedUnitState "AAA" 2020
    (by decide) (by decide) (by decide)

/-- C7: a unit is force-fetched exactly when the job-wide `force_refresh`
flag is set, or `revalidate_recent_years > 0` and the unit's year reaches
`max(start_year, end_year - revalidate_recent_years + 1)`; a forced unit
always invokes the fetch client even when cached, while an unforced cached
unit is skipped without any fetch. -/
theorem force_refresh_policy (job : PrefetchJob) (y : Int) (recent : Nat) :
    (force_this_step job y recent = true ↔
      (job.forceRefresh = true ∨
        (0 < recent ∧ max job.startYear (job.endYear - (recent : Int) + 1) ≤ y))) ∧
    (∀ (oracle : Oracle) (cache : List DpsCacheRow) (fc vis : List (String × Int))
      (t : String), ¬ t = "" →
      force_this_step job y recent = true →
      (process_single_step oracle recent ⟨job, cache, fc, vis⟩ t y).2.fetchCalls =
        fc ++ [(t, y)]) ∧
    (∀ (oracle : Oracle) (st : EngineState) (t : String), ¬ t = "" →
      force_this_step st.job y recent = false →
      has_cached_value st.cache t y (step_reprt st.job) = true →
      (process_single_step oracle recent st t y).2.fetchCalls = st.fetchCalls) := by
  refine ⟨?_, ?_, ?_⟩
  · by_cases hr : recent = 0
    · subst hr
      simp [force_this_step, should_force_refresh]
    · simp [force_this_step, should_force_refresh, hr, Nat.pos_of_ne_zero hr]
  · intro oracle cache fc vis t ht hforce
    have hfetch : force_this_step (⟨job, cache, fc, vis⟩ : EngineState).job y recent = true ∨
        has_cached_value (⟨job, cache, fc, vis⟩ : EngineState).cache t y
          (step_reprt (⟨job, cache, fc, vis⟩ : EngineState).job) = false := Or.inl hforce
    rcases horacle : oracle t y (step_reprt job) (force_this_step job y recent) with
      ⟨items, eff⟩ | msg
    · rw [process_fetch_ok oracle recent ⟨job, cache, fc, vis⟩ t y items eff ht hfetch horacle]
    · by_cases hmiss : is_missing_corp_code_error msg = true
      · rw [process_fetch_missing oracle recent ⟨job, cache, fc, vis⟩ t y msg ht hfetch
          horacle hmiss]
      · rw [process_fetch_fatal oracle recent ⟨job, cache, fc, vis⟩ t y msg ht hfetch
          horacle (by simpa using hmiss)]
  · intro oracle st t ht hforce hcached
    rw [process_cache_skip oracle recent st t y ht hforce hcached]

/-- Demo job inside a 2018–2023 range with a one-year revalidation window. -/
def revalidateDemoJob : PrefetchJob :=
  { demoJob with startYear := 2018, endYear := 2023 }

theorem force_refresh_policy_witness :
    force_this_step revalidateDemoJob 2023 1 = true ∧
    force_this_step revalidateDemoJob 2022 1 = false ∧
    (process_single_step okOracle 1
      ⟨revalidateDemoJob, [{ cachedRowDemo with fiscalYear := 2023 }], [], []⟩
      "AAA" 2023).2.fetchCalls = [("AAA", 2023)] :=
  ⟨(force_refresh_policy revalidateDemoJob 2023 1).1.mpr
      (Or.inr ⟨by decide, by decide⟩),
    by decide,
    (force_refresh_policy revalidateDemoJob 2023 1).2.1 okOracle
      [{ cachedRowDemo with fiscalYear := 2023 }] [] [] "AAA" (by decide) (by decide)⟩

/-- Fetch client that cannot resolve BADCO (entity-unresolvable error) and
succeeds for everything else. -/
def missingDemoOracle : Oracle := fun t y _ _ =>
  if t = "BADCO" then .err "BADCO: 고유번호 조회 실패"
  else .ok [{ ticker := t, fiscalYear := y, reprtCode := "11011", dpsCash := .some 120,
              currency := .some "KRW" }] id

/-- RUNNING two-ticker job over the single year 2020, first ticker
unresolvable. -/
def missingDemoState : EngineState :=
  { job :=
      { demoJob with
        tickersJson := .some (.dict (.some [.str "BADCO", .str "GOODCO"]) .none)
        endYear := 2020 }
    cache := []
    fetchCalls := []
    visited := [] }

/-- C3: an entity-unresolvable fetch error (`DartApiUnavailable` matching the
missing-corp-code pattern) is non-fatal: the unit bumps `skip_count`, records
`last_error`, writes a confirmed-error marker to the cache (never overwriting
a cached real value), leaves the status (hence not FAILED), and the step loop
continues to the next unit within the same `run_job_step` call. -/
theorem missing_corp_error_nonfatal (oracle : Oracle) (recent : Nat) (st : EngineState)
    (t : String) (y : Int) (msg : String)
    (ht : ¬ t = "")
    (hfetch : force_this_step st.job y recent = true ∨
      has_cached_value st.cache t y (step_reprt st.job) = false)
    (horacle : oracle t y (step_reprt st.job) (force_this_step st.job y recent) = .err msg)
    (hmiss : is_missing_corp_code_error msg = true) :
    (process_single_step oracle recent st t y).1 = true ∧
    (process_single_step oracle recent st t y).2.job.skipCount = st.job.skipCount + 1 ∧
    (process_single_step oracle recent st t y).2.job.lastError = .some msg ∧
    (process_single_step oracle recent st t y).2.job.status = st.job.status ∧
    (process_single_step oracle recent st t y).2.job.failCount = st.job.failCount ∧
    (process_single_step oracle recent st t y).2.cache =
      mark_missing_step st.cache t y (step_reprt st.job) msg ∧
    (∀ (cache : List DpsCacheRow) (t2 : String) (y2 : Int) (rc m : String)
      (r : DpsCacheRow), cache_lookup cache t2 y2 rc = .some r →
      r.dpsCash.isSome = true → mark_missing_step cache t2 y2 rc m = cache) ∧
    (run_job_step missingDemoOracle 10 missingDemoState).visited =
      [("BADCO", 2020), ("GOODCO", 2020)] ∧
    (run_job_step missingDemoOracle 10 missingDemoState).job.status = .done ∧
    (run_job_step missingDemoOracle 10 missingDemoState).job.skipCount = 1 ∧
    (run_job_step missingDemoOracle 10 missingDemoState).job.successCount = 1 ∧
    (run_job_step missingDemoOracle 10 missingDemoState).job.failCount = 0 ∧
    (run_job_step missingDemoOracle 10 missingDemoState).cache =
      [{ ticker := "BADCO", fiscalYear := 2020, reprtCode := "11011",
         currency := .none, dpsCash := .none, parserVersion := PARSER_VERSION,
         rawPayload := .some (.errorMarker "BADCO: 고유번호 조회 실패") }] := by
  have h := process_fetch_missing oracle recent st t y msg ht hfetch horacle hmiss
  refine ⟨by rw [h], by rw [h], by rw [h], by rw [h], by rw [h], by rw [h],
    ?_, by decide, by decide, by decide, by decide, by decide, by decide⟩
  intro cache t2 y2 rc m r hlook hval
  simp only [mark_missing_step, hlook]
  rw [if_pos hval]

/-- Witness cache row with a real value already present for (BADCO, 2020). -/
def realValueRow : DpsCacheRow :=
  { ticker := "BADCO", fiscalYear := 2020, reprtCode := "11011", currency := .some "KRW",
    dpsCash := .some 9, parserVersion := "v1", rawPayload := .none }

theorem missing_corp_error_nonfatal_witness :
    (process_single_step missingDemoOracle 0 missingDemoState "BADCO" 2020).1 = true ∧
    (process_single_step missingDemoOracle 0 missingDemoState "BADCO" 2020).2.job.skipCount = 1 ∧
    (process_single_step missingDemoOracle 0 missingDemoState "BADCO" 2020).2.job.lastError =
      .some "BADCO: 고유번호 조회 실패" ∧
    mark_missing_step [realValueRow] "BADCO" 2020 "11011" "err" = [realValueRow] := by
  have h := missing_corp_error_nonfatal missingDemoOracle 0 missingDemoState
    "BADCO" 2020 "BADCO: 고유번호 조회 실패" (by decide) (Or.inr (by decide)) rfl (by decide)
  exact ⟨h.1, h.2.1, h.2.2.1, h.2.2.2.2.2.2.1 [realValueRow] "BADCO" 2020 "11011" "err"
    realValueRow (by decide) (by decide)⟩

/-- C2: a generic `DartApiUnavailable` failure (message not matching the
missing-corp-code pattern) on the unit under the cursor makes `run_job_step`
halt immediately for any step limit: status FAILED, `fail_count` bumped,
`last_error` recorded, cursor left on the failed unit, `processed_count`
bumped once for the attempted unit, and no further unit visited. -/
theorem provider_unavailable_fatal (oracle : Oracle) (st : EngineState) (msg : String)
    (l : Int)
    (hrun : st.job.status = .running)
    (hidx : st.job.cursorIndex < (decode_job_payload st.job.tickersJson).1.length)
    (hylo : st.job.startYear ≤ st.job.cursorYear)
    (hyhi : st.job.cursorYear ≤ st.job.endYear)
    (ht : ¬ (decode_job_payload st.job.tickersJson).1.getD st.job.cursorIndex "" = "")
    (hfetch : force_this_step st.job st.job.cursorYear
        (extract_recent_years (decode_job_payload st.job.tickersJson).2) = true ∨
      has_cached_value st.cache
        ((decode_job_payload st.job.tickersJson).1.getD st.job.cursorIndex "")
        st.job.cursorYear (step_reprt st.job) = false)
    (horacle : oracle ((decode_job_payload st.job.tickersJson).1.getD st.job.cursorIndex "")
        st.job.cursorYear (step_reprt st.job)
        (force_this_step st.job st.job.cursorYear
          (extract_recent_years (decode_job_payload st.job.tickersJson).2)) = .err msg)
    (hmiss : is_missing_corp_code_error msg = false) :
    (run_job_step oracle l st).job.status = .failed ∧
    (run_job_step oracle l st).job.failCount = st.job.failCount + 1 ∧
    (run_job_step oracle l st).job.lastError = .some msg ∧
    (run_job_step oracle l st).job.cursorIndex = st.job.cursorIndex ∧
    (run_job_step oracle l st).job.cursorYear = st.job.cursorYear ∧
    (run_job_step oracle l st).job.processedCount = st.job.processedCount + 1 ∧
    (run_job_step oracle l st).job.skipCount = st.job.skipCount ∧
    (run_job_step oracle l st).job.successCount = st.job.successCount ∧
    (run_job_step oracle l st).visited = st.visited ++
      [((decode_job_payload st.job.tickersJson).1.getD st.job.cursorIndex "",
        st.job.cursorYear)] := by
  have hor : st.job.status = .running ∨ st.job.status = .cancelRequested := Or.inl hrun
  have htne : ¬ (decode_job_payload st.job.tickersJson).1 = [] := by
    intro h
    rw [h] at hidx
    simp at hidx
  have hclamp : ¬ (st.job.cursorYear < st.job.startYear ∨
      st.job.endYear < st.job.cursorYear) := by omega
  have hso := step_once_fatal oracle
    (extract_recent_years (decode_job_payload st.job.tickersJson).2)
    (decode_job_payload st.job.tickersJson).1 st msg ht hfetch horacle hmiss
  have hnc : ¬ st.job.status = JobStatus.cancelRequested := by
    rw [hrun]
    intro hc
    cases hc
  have hnl : ¬ (decode_job_payload st.job.tickersJson).1.length ≤ st.job.cursorIndex :=
    not_le.mpr hidx
  obtain ⟨k, hk⟩ : ∃ k, effLimit l = k + 1 := by
    refine ⟨effLimit l - 1, ?_⟩
    have : 1 ≤ effLimit l := by
      rw [effLimit]
      split <;> omega
    omega
  have hcalc : run_job_step oracle l st = (step_once oracle
      (extract_recent_years (decode_job_payload st.job.tickersJson).2)
      (decode_job_payload st.job.tickersJson).1 st).2 := by
    simp only [run_job_step, if_pos hor, if_neg htne, if_neg hclamp, hk]
    rw [run_loop, if_neg hnc, if_neg hnl]
    simp only [hso, Bool.false_eq_true, if_false]
  rw [hcalc, hso]
  exact ⟨rfl, rfl, rfl, rfl, rfl, rfl, rfl, rfl, rfl⟩

/-- Fetch client that is hard down for every request. -/
def outageOracle : Oracle := fun _ _ _ _ => .err "connection timeout"

theorem provider_unavailable_fatal_witness :
    (run_job_step outageOracle 99 missingDemoState).job.status = .failed ∧
    (run_job_step outageOracle 99 missingDemoState).job.failCount = 1 ∧
    (run_job_step outageOracle 99 missingDemoState).job.lastError =
      .some "connection timeout" ∧
    (run_job_step outageOracle 99 missingDemoState).job.cursorIndex = 0 ∧
    (run_job_step outageOracle 99 missingDemoState).job.cursorYear = 2020 ∧
    (run_job_step outageOracle 99 missingDemoState).job.processedCount = 1 ∧
    (run_job_step outageOracle 99 missingDemoState).job.skipCount = 0 ∧
    (run_job_step outageOracle 99 missingDemoState).job.successCount = 0 ∧
    (run_job_step outageOracle 99 missingDemoState).visited = [("BADCO", 2020)] := by
  have h := provider_unavailable_fatal outageOracle missingDemoState "connection timeout"
    99 rfl (by decide) (by decide) (by decide) (by decide) (Or.inr (by decide)) rfl
    (by decide)
  exact ⟨h.1, h.2.1, h.2.2.1, h.2.2.2.1, h.2.2.2.2.1, h.2.2.2.2.2.1, h.2.2.2.2.2.2.1,
    h.2.2.2.2.2.2.2.1, h.2.2.2.2.2.2.2.2⟩

/-- Cache row for (AAA, 2020) with a real value, used by the stale
`last_error` scenario. -/
def staleErrState : EngineState :=
  { job := { demoJob with lastError := .some "boom" }
    cache := [cachedRowDemo]
    fetchCalls := []
    visited := [] }

/-- C9 as stated is false: a cache-hit step completes without error (no
exception, no fail, still RUNNING) yet leaves a previously recorded
`last_error` in place — only a step whose fetch succeeds clears it. -/
theorem last_error_survives_skip_counterexample :
    staleErrState.job.lastError = .some "boom" ∧
    (run_job_step okOracle 1 staleErrState).job.processedCount = 1 ∧
    (run_job_step okOracle 1 staleErrState).job.skipCount = 1 ∧
    (run_job_step okOracle 1 staleErrState).job.failCount = 0 ∧
    (run_job_step okOracle 1 staleErrState).job.status = .running ∧
    (run_job_step okOracle 1 staleErrState).fetchCalls = [] ∧
    (run_job_step okOracle 1 staleErrState).job.lastError = .some "boom" := by
  refine ⟨rfl, by decide, by decide, by decide, by decide, by decide, by decide⟩

/-- C9 (amended): `last_error` holds the most recent error message or null;
it is cleared by the next unit whose fetch completes successfully, while
skip units (cache hit or empty entity) leave it unchanged. -/
theorem last_error_cleared_on_fetch_success (oracle : Oracle) (recent : Nat)
    (st : EngineState) (t : String) (y : Int) (items : List DpsSeriesItem)
    (eff : List DpsCacheRow → List DpsCacheRow)
    (ht : ¬ t = "")
    (hfetch : force_this_step st.job y recent = true ∨
      has_cached_value st.cache t y (step_reprt st.job) = false)
    (horacle : oracle t y (step_reprt st.job) (force_this_step st.job y recent) =
      .ok items eff) :
    (process_single_step oracle recent st t y).2.job.lastError = .none ∧
    (∀ (st2 : EngineState) (t2 : String) (y2 : Int), ¬ t2 = "" →
      force_this_step st2.job y2 recent = false →
      has_cached_value st2.cache t2 y2 (step_reprt st2.job) = true →
      (process_single_step oracle recent st2 t2 y2).2.job.lastError =
        st2.job.lastError) ∧
    (∀ (st2 : EngineState) (y2 : Int),
      (process_single_step oracle recent st2 "" y2).2.job.lastError =
        st2.job.lastError) := by
  refine ⟨?_, ?_, ?_⟩
  · rw [process_fetch_ok oracle recent st t y items eff ht hfetch horacle]
    by_cases hi : items.any (fun it => it.fiscalYear == y && it.dpsCash.isSome) = true
    · simp only [hi, if_true]
    · simp [hi]
  · intro st2 t2 y2 ht2 hforce hcached
    rw [process_cache_skip oracle recent st2 t2 y2 ht2 hforce hcached]
  · intro st2 y2
    rw [process_empty_ticker oracle recent st2 y2]

theorem last_error_cleared_on_fetch_success_witness :
    (process_single_step okOracle 0 staleErrState "AAA" 2021).2.job.lastError = .none :=
  (last_error_cleared_on_fetch_success okOracle 0 staleErrState "AAA" 2021
    [{ ticker := "AAA", fiscalYear := 2021, reprtCode := "11011", dpsCash := .some 100,
       currency := .some "KRW" }] id (by decide) (Or.inr (by decide)) rfl).1

/-- A FAILED single-ticker job over the single year 2020. -/
def failedDemoState : EngineState :=
  { job := { demoJob with status := .failed, endYear := 2020 }
    cache := []
    fetchCalls := []
    visited := [] }

/-- A CANCELLED single-ticker job over the single year 2020. -/
def cancelledDemoState : EngineState :=
  { job := { demoJob with status := .cancelled, endYear := 2020 }
    cache := []
    fetchCalls := []
    visited := [] }

/-- A DONE job with the cursor past the ticker list. -/
def doneDemoState : EngineState :=
  { job := { demoJob with status := .done, cursorIndex := 1, processedCount := 2 }
    cache := []
    fetchCalls := []
    visited := [] }

/-- C4 as stated is false: a job in CANCELLED or FAILED status is revived by
`resume_job` (which only special-cases DONE and RUNNING), after which
`run_job_step` processes further units of that job. -/
theorem terminal_states_not_absorbing :
    failedDemoState.job.status = .failed ∧
    (run_ops okOracle failedDemoState [.resume, .step 1]).visited = [("AAA", 2020)] ∧
    (run_ops okOracle failedDemoState [.resume, .step 1]).job.processedCount = 1 ∧
    cancelledDemoState.job.status = .cancelled ∧
    (run_ops okOracle cancelledDemoState [.resume, .step 1]).visited = [("AAA", 2020)] ∧
    (run_ops okOracle cancelledDemoState [.resume, .step 1]).job.processedCount = 1 := by
  refine ⟨rfl, by decide, by decide, rfl, by decide, by decide⟩

/-- C4 (amended): DONE is absorbing across the whole operation set — no
sequence of resume/pause/cancel/step calls changes the state or processes a
unit.  CANCELLED and FAILED only block direct `run_job_step` calls;
`resume_job` moves them back to RUNNING, after which further units can be
processed. -/
theorem done_is_absorbing (oracle : Oracle) (st : EngineState) (ops : List OpCall)
    (h : st.job.status = .done) :
    run_ops oracle st ops = st ∧
    (∀ (oracle2 : Oracle) (l : Int) (st2 : EngineState),
      st2.job.status = .cancelled ∨ st2.job.status = .failed →
      run_job_step oracle2 l st2 = st2) ∧
    (∀ job : PrefetchJob, job.status = .cancelled ∨ job.status = .failed →
      (resume_job job).status = .running) := by
  refine ⟨run_ops_done oracle st ops h, ?_, ?_⟩
  · intro oracle2 l st2 h2
    refine run_job_step_noop oracle2 l st2 ?_ ?_ <;>
      rcases h2 with h2 | h2 <;> rw [h2] <;> intro hc <;> cases hc
  · intro job hj
    have hnot : ¬ (job.status = .done ∨ job.status = .running) := by
      rcases hj with hj | hj <;> rw [hj] <;> rintro (hc | hc) <;> cases hc
    rw [resume_job, if_neg hnot]

theorem done_is_absorbing_witness :
    run_ops okOracle doneDemoState [.resume, .cancel, .step 4, .pause] = doneDemoState ∧
    run_job_step okOracle 7 cancelledDemoState = cancelledDemoState ∧
    (resume_job failedDemoState.job).status = .running :=
  ⟨(done_is_absorbing okOracle doneDemoState [.resume, .cancel, .step 4, .pause] rfl).1,
    (done_is_absorbing okOracle doneDemoState [] rfl).2.1 okOracle 7 cancelledDemoState
      (Or.inl rfl),
    (done_is_absorbing okOracle doneDemoState [] rfl).2.2 failedDemoState.job
      (Or.inr rfl)⟩


theorem normalize_tickers_go_spec :
    ∀ (values : List RawVal) (acc : List String),
    (∃ l, normalize_tickers_go values acc = acc ++ l ∧
      l.Sublist (values.map normalize_ticker)) ∧
    (acc.Nodup → (normalize_tickers_go values acc).Nodup) ∧
    (∀ x, x ∈ normalize_tickers_go values acc ↔
      x ∈ acc ∨ (¬ x = "" ∧ x ∈ values.map normalize_ticker)) := by
  intro values
  induction values with
  | nil =>
    intro acc
    refine ⟨⟨[], by simp [normalize_tickers_go], by simp⟩, fun h => h, ?_⟩
    intro x
    simp [normalize_tickers_go]
  | cons v rest ih =>
    intro acc
    by_cases hskip : normalize_ticker v = "" ∨ normalize_ticker v ∈ acc
    · have hgo : normalize_tickers_go (v :: rest) acc = normalize_tickers_go rest acc := by
        simp only [normalize_tickers_go]
        rw [if_pos hskip]
      obtain ⟨⟨l, hl, hsub⟩, hnd, hmem⟩ := ih acc
      rw [hgo]
      refine ⟨⟨l, hl, ?_⟩, hnd, ?_⟩
      · rw [List.map_cons]
        exact hsub.trans (List.sublist_cons_self _ _)
      · intro x
        rw [hmem x, List.map_cons]
        constructor
        · rintro (h | ⟨hne, hmm⟩)
          · exact Or.inl h
          · exact Or.inr ⟨hne, List.mem_cons_of_mem _ hmm⟩
        · rintro (h | ⟨hne, hmm⟩)
          · exact Or.inl h
          · rcases List.mem_cons.mp hmm with heq | hmm2
            · rcases hskip with h0 | h0
              · exact absurd (heq.trans h0) hne
              · exact Or.inl (heq ▸ h0)
            · exact Or.inr ⟨hne, hmm2⟩
    · push_neg at hskip
      obtain ⟨hne0, hnotin⟩ := hskip
      have hgo : normalize_tickers_go (v :: rest) acc =
          normalize_tickers_go rest (acc ++ [normalize_ticker v]) := by
        simp only [normalize_tickers_go]
        rw [if_neg (by push_neg; exact ⟨hne0, hnotin⟩)]
      obtain ⟨⟨l, hl, hsub⟩, hnd, hmem⟩ := ih (acc ++ [normalize_ticker v])
      rw [hgo]
      refine ⟨⟨normalize_ticker v :: l, by rw [hl]; simp, ?_⟩, ?_, ?_⟩
      · rw [List.map_cons]
        exact hsub.cons₂ _
      · intro hacc
        apply hnd
        rw [List.nodup_append]
        exact ⟨hacc, List.nodup_singleton _, by simpa using hnotin⟩
      · intro x
        rw [hmem x, List.map_cons, List.mem_append, List.mem_singleton, List.mem_cons]
        constructor
        · rintro ((h | h) | ⟨hne, hmm⟩)
          · exact Or.inl h
          · exact Or.inr ⟨by rw [h]; exact hne0, Or.inl h⟩
          · exact Or.inr ⟨hne, Or.inr hmm⟩
        · rintro (h | ⟨hne, (h | hmm)⟩)
          · exact Or.inl (Or.inl h)
          · exact Or.inl (Or.inr h)
          · exact Or.inr ⟨hne, hmm⟩


/-- C8: `create_job` deduplicates the normalized entity list preserving
first-seen order, swaps reversed year bounds, clamps
`revalidate_recent_years` into `[0, 2]`, and persists a PAUSED job with the
cursor at `(0, start_year)` and all counters zero; it fails (persisting
nothing) exactly when the entity list normalizes to empty. -/
theorem create_job_validates_and_normalizes (jobId : String) (tickers : List RawVal)
    (startYear endYear : Int) (reprtCode : String) (forceRefresh : Bool)
    (jobName : Option String) (rv : Int) :
    (normalize_tickers tickers = [] →
      create_job jobId tickers startYear endYear reprtCode forceRefresh jobName
        (.intVal rv) = .error "작업 대상 ticker가 필요합니다.") ∧
    (¬ normalize_tickers tickers = [] →
      create_job jobId tickers startYear endYear reprtCode forceRefresh jobName
        (.intVal rv) =
      .ok { jobId := jobId
            status := .paused
            jobName := jobName
            tickersJson := .some (encode_job_payload (normalize_tickers tickers)
              (normalize_recent_years (.intVal rv)))
            startYear := min startYear endYear
            endYear := max startYear endYear
            reprtCode := if reprtCode = "" then DEFAULT_REPRT_CODE else reprtCode
            forceRefresh := forceRefresh
            cursorIndex := 0
            cursorYear := min startYear endYear
            processedCount := 0
            successCount := 0
            skipCount := 0
            failCount := 0
            lastError := .none }) ∧
    (normalize_tickers tickers).Nodup ∧
    (normalize_tickers tickers).Sublist (tickers.map normalize_ticker) ∧
    (∀ x, x ∈ normalize_tickers tickers ↔
      ¬ x = "" ∧ x ∈ tickers.map normalize_ticker) ∧
    normalize_recent_years (.intVal rv) ≤ 2 ∧
    (0 ≤ rv → rv ≤ 2 → (normalize_recent_years (.intVal rv) : Int) = rv) := by
  obtain ⟨⟨l, hl, hsub⟩, hnd, hmem⟩ := normalize_tickers_go_spec tickers []
  refine ⟨?_, ?_, ?_, ?_, ?_, ?_, ?_⟩
  · intro h
    simp only [create_job, if_pos h]
  · intro h
    simp only [create_job, if_neg h]
  · exact hnd List.nodup_nil
  · rw [normalize_tickers, hl]
    simpa using hsub
  · intro x
    have h := hmem x
    rw [normalize_tickers]
    simpa using h
  · simp only [normalize_recent_years]
    omega
  · intro h0 h2
    simp only [normalize_recent_years]
    omega

theorem create_job_validates_and_normalizes_witness :
    create_job "j1" [.str " samsung ", .str "SAMSUNG", .null, .str "lg"]
      2021 2019 "" true .none (.intVal 5) =
      .ok { jobId := "j1"
            status := .paused
            jobName := .none
            tickersJson := .some (.dict
              (.some [.str "SAMSUNG", .str "LG"])
              (.some ⟨.some (.intVal 2)⟩))
            startYear := 2019
            endYear := 2021
            reprtCode := "11011"
            forceRefresh := true
            cursorIndex := 0
            cursorYear := 2019
            processedCount := 0
            successCount := 0
            skipCount := 0
            failCount := 0
            lastError := .none } ∧
    create_job "j2" [.null, .str "   "] 2019 2021 "11011" false .none (.intVal 0) =
      .error "작업 대상 ticker가 필요합니다." := by
  constructor
  · rw [(create_job_validates_and_normalizes "j1"
      [.str " samsung ", .str "SAMSUNG", .null, .str "lg"] 2021 2019 "" true .none
      5).2.1 (by decide)]
    rfl
  · exact (create_job_validates_and_normalizes "j2" [.null, .str "   "] 2019 2021
      "11011" false .none 0).1 (by decide)

/-- C5: for a RUNNING job with a non-empty decoded entity list and the cursor
at the start, any sequence of `run_job_step` calls whose total effective
budget covers the grid — under an oracle with no fatal failures and with no
cancel — visits exactly the units of the grid in order (entities in stored
order, years ascending within each entity), then finishes with status DONE
and the cursor index at the entity count. -/
theorem traversal_deterministic (oracle : Oracle) (st : EngineState) (limits : List Int)
    (hnf : NoFatal oracle)
    (hrun : st.job.status = .running)
    (hidx : st.job.cursorIndex = 0)
    (hyear : st.job.cursorYear = st.job.startYear)
    (hrange : st.job.startYear ≤ st.job.endYear)
    (hne : ¬ (decode_job_payload st.job.tickersJson).1 = [])
    (hfuel : (unit_seq (decode_job_payload st.job.tickersJson).1 st.job.startYear
      st.job.endYear).length ≤ total_fuel limits) :
    (run_ops oracle st (limits.map OpCall.step)).visited =
      st.visited ++ unit_seq (decode_job_payload st.job.tickersJson).1 st.job.startYear
        st.job.endYear ∧
    (run_ops oracle st (limits.map OpCall.step)).job.status = .done ∧
    (run_ops oracle st (limits.map OpCall.step)).job.cursorIndex =
      (decode_job_payload st.job.tickersJson).1.length := by
  have hwf : LoopWF (decode_job_payload st.job.tickersJson).1 st :=
    ⟨hrun, by rw [hidx]; exact List.length_pos.mpr hne, by omega, by omega⟩
  have hrest : rest_seq (decode_job_payload st.job.tickersJson).1 st.job.startYear
      st.job.endYear st.job.cursorIndex st.job.cursorYear =
      unit_seq (decode_job_payload st.job.tickersJson).1 st.job.startYear
        st.job.endYear := by
    rw [hidx, hyear, rest_seq_zero]
  obtain ⟨hv, hs, he, ht, hif⟩ := run_steps_spec oracle hnf limits st hwf _ rfl
    (run_ops oracle st (limits.map OpCall.step)) (run_ops_steps oracle st limits)
  rw [hrest] at hv hif
  rw [if_neg (by omega)] at hif
  refine ⟨?_, hif.1, hif.2⟩
  rw [hv, List.take_of_length_le hfuel]


/-- RUNNING two-ticker job over 2020–2021, cursor at the start. -/
def traversalDemoState : EngineState :=
  { job :=
      { demoJob with
        tickersJson := .some (.dict (.some [.str "AAA", .str "BBB"]) .none) }
    cache := []
    fetchCalls := []
    visited := [] }

theorem traversal_deterministic_witness :
    (run_ops okOracle traversalDemoState ([3, 5].map OpCall.step)).visited =
      [] ++ unit_seq ["AAA", "BBB"] 2020 2021 ∧
    (run_ops okOracle traversalDemoState ([3, 5].map OpCall.step)).job.status = .done ∧
    (run_ops okOracle traversalDemoState ([3, 5].map OpCall.step)).job.cursorIndex = 2 ∧
    unit_seq ["AAA", "BBB"] 2020 2021 =
      [("AAA", 2020), ("AAA", 2021), ("BBB", 2020), ("BBB", 2021)] := by
  have h := traversal_deterministic okOracle traversalDemoState [3, 5]
    (fun _ _ _ _ => trivial) rfl rfl rfl (by decide) (by decide) (by decide)
  exact ⟨h.1, h.2.1, h.2.2, by decide⟩

end PrefetchRunner
